import Mathlib

/-!
Verification of the winid RAG service core against its specification.

The development shallowly embeds the JavaScript source:
* JS numbers (IEEE float64 / Float32Array entries) are modelled as exact
  rationals (`ℚ`); `Math.sqrt` is abstracted as an explicit function
  parameter, since the verified properties hold for every choice of it.
* JS strings are modelled as Lean `String`s, manipulated through
  structural functions over their character lists so that everything
  evaluates.
* Asynchronous database statements are modelled by explicit state passing
  over a `Store` record; a statement failure is injected through boolean
  parameters, and `Except` carries the raised error.
* External services (embedding backend, LLM, tokenizer) are oracles passed
  as function parameters, mirroring the interface contracts of the spec.
-/

namespace Winid

/-! ## Character-list string utilities (JS string operations) -/

/-- Whitespace characters recognised by the JS `\s` class and `trim()`
(restricted to the ASCII whitespace actually occurring in this code base). -/
def isSpaceChar (c : Char) : Bool :=
  c = ' ' || c = '\t' || c = '\n' || c = '\r'

/-- Trim of a character list: drop whitespace from both ends. -/
def trimChars (l : List Char) : List Char :=
  ((l.dropWhile isSpaceChar).reverse.dropWhile isSpaceChar).reverse

/-- JS `String.prototype.trim()`. -/
def jsTrim (s : String) : String :=
  ⟨trimChars s.data⟩

/-- Structural character-list version of `startsWith`. -/
def startsChars : List Char → List Char → Bool
  | _, [] => true
  | [], _ :: _ => false
  | a :: as, b :: bs => a = b && startsChars as bs

/-- JS `String.prototype.startsWith`. -/
def jsStartsWith (s pre : String) : Bool :=
  startsChars s.data pre.data

/-- JS `String.prototype.slice(n)` (drop the first `n` characters). -/
def jsDrop (s : String) (n : Nat) : String :=
  ⟨s.data.drop n⟩

/-- JS `String.prototype.slice(0, n)` (take the first `n` characters). -/
def jsTake (s : String) (n : Nat) : String :=
  ⟨s.data.take n⟩

/-- JS `String.prototype.slice(-n)` (the last `n` characters). -/
def jsTakeRight (s : String) (n : Nat) : String :=
  ⟨s.data.drop (s.data.length - n)⟩

/-- JS `String.prototype.length` (character count model). -/
def jsLength (s : String) : Nat :=
  s.data.length

/-- JS `String.prototype.toLowerCase` (ASCII case folding, which covers
every cased character appearing in the patterns of this code base). -/
def jsToLower (s : String) : String :=
  ⟨s.data.map Char.toLower⟩

/-- Does `sub` occur as a contiguous substring of `s`? Models an unanchored
JS regex alternative / `String.prototype.includes`. -/
def containsChars : List Char → List Char → Bool
  | _, [] => true
  | [], _ :: _ => false
  | a :: as, b :: bs => (a = b && startsChars as bs) || containsChars as (b :: bs)

/-- JS `String.prototype.includes`. -/
def jsIncludes (s sub : String) : Bool :=
  containsChars s.data sub.data

/-! ## Rational vector helpers (floats abstracted as `ℚ`) -/

/-- Sum of squares of a vector, the `sum` accumulated by `l2Normalize`
in `src/db/repo.js`. -/
def sumSq (v : List ℚ) : ℚ :=
  (v.map (fun x => x * x)).sum

/-- The `dot` helper of `src/db/repo.js`: it iterates over the indices of
`a` and reads `b[i]`.  When `b` is shorter than `a` the JS code reads
`undefined` and the result is NaN, which fails every subsequent `>=`
comparison; this is modelled by `none`.  Extra entries of `b` are ignored. -/
def dotOpt (a b : List ℚ) : Option ℚ :=
  if b.length < a.length then none
  else some (List.zipWith (fun x y => x * y) a b).sum

/-- The `l2Normalize` helper of `src/db/repo.js` (first variant).
`Math.sqrt` is passed in as `sqrt`.  The JS `|| 1` turns a zero norm into
`1`; `n === 1` short-circuits to a copy of the input.  An empty vector
throws. -/
def l2Normalize (sqrt : ℚ → ℚ) (v : List ℚ) : Except String (List ℚ) :=
  if v.length = 0 then .error "l2Normalize: invalid vector"
  else
    let n : ℚ := if sqrt (sumSq v) = 0 then 1 else sqrt (sumSq v)
    if n = 1 then .ok v
    else .ok (v.map (fun x => x / n))

/-! ## Vector store data model (`src/db/repo.js`) -/

/-- The metadata keys that the verified operations inspect.  The JS
metadata is a free-form bag; absent keys are `none`. -/
structure Metadata where
  type : Option String := none
  sha256 : Option String := none
  filepath : Option String := none
  page : Option Nat := none
deriving Repr, DecidableEq

/-- One entry of the process-resident `vectorCache` array. -/
structure CacheItem where
  id : Nat
  metadata : Metadata
  embedding : List ℚ
deriving Repr, DecidableEq

/-- One scored search result (`{id, metadata, similarity}`, with `content`
attached after the batched fetch). -/
structure ScoredDoc where
  id : Nat
  metadata : Metadata
  similarity : ℚ
  content : Option String := none
deriving Repr, DecidableEq

/-- The options record of `matchDocuments` with its JS defaults
(`k = 8`, `threshold = 0.7`, `types = null`, `sha256 = null`). -/
structure MatchOptions where
  k : Nat := 8
  threshold : ℚ := 7/10
  types : Option (List String) := none
  sha256 : Option String := none

/-- The type filter of `matchDocuments`: active only when `types` is
truthy and non-empty (`types && types.length > 0`); an item passes when
its `metadata.type` is a member of `types`. -/
def typePass (types : Option (List String)) (m : Metadata) : Bool :=
  match types with
  | none => true
  | some ts =>
    if 0 < ts.length then
      match m.type with
      | some t => ts.contains t
      | none => false
    else true

/-- The sha filter of `matchDocuments`: `if (sha256 && item.metadata.sha256
!== sha256) continue` — active only when `sha256` is truthy (non-null and
non-empty). -/
def shaPass (sha : Option String) (m : Metadata) : Bool :=
  match sha with
  | none => true
  | some s => if s = "" then true else decide (m.sha256 = some s)

/-- The candidate-collection loop of `matchDocuments`: for each cache item
apply both filters, compute `sim = dot(q, item.embedding)` and keep the
item when `sim >= threshold` (a NaN similarity fails the comparison). -/
def scoredCandidates (cache : List CacheItem) (q : List ℚ)
    (opts : MatchOptions) : List ScoredDoc :=
  cache.filterMap (fun item =>
    if typePass opts.types item.metadata && shaPass opts.sha256 item.metadata then
      match dotOpt q item.embedding with
      | some sim => if opts.threshold ≤ sim then some ⟨item.id, item.metadata, sim, none⟩ else none
      | none => none
    else none)

/-- The comparator `(a, b) => b.similarity - a.similarity` of the JS
stable `Array.prototype.sort`, as a boolean "may come before" relation:
descending by similarity, ties keep insertion order. -/
def simDesc (a b : ScoredDoc) : Bool :=
  decide (b.similarity ≤ a.similarity)

/-- Attachment of `content` fetched from the `documents` table
(`rows.find(r => r.id === res.id)`). -/
def attachContent (docs : List (Nat × String)) (r : ScoredDoc) : ScoredDoc :=
  match docs.find? (fun d => d.1 = r.id) with
  | some d => { r with content := some d.2 }
  | none => r

/-- `matchDocuments` of `src/db/repo.js` (first variant), over an already
loaded cache: normalize the query, score and filter the cache, sort by
similarity descending (stable), take the first `k`, and attach contents
from the `documents` table `docs`. -/
def matchDocuments (sqrt : ℚ → ℚ) (cache : List CacheItem)
    (docs : List (Nat × String)) (queryEmbedding : List ℚ)
    (opts : MatchOptions) : Except String (List ScoredDoc) :=
  match l2Normalize sqrt queryEmbedding with
  | .error e => .error e
  | .ok q =>
    .ok (((((scoredCandidates cache q opts).mergeSort simDesc).take opts.k)).map
      (attachContent docs))

/-! ## Durable store and insert (`src/db/repo.js`) -/

/-- A row of the `documents` table. -/
structure DocRow where
  id : Nat
  content : String
  metadata : Metadata
deriving Repr, DecidableEq

/-- A row of the `embeddings` table. -/
structure EmbRow where
  document_id : Nat
  embedding : List ℚ
deriving Repr, DecidableEq

/-- The state touched by `insertDocumentWithEmbedding`: the two durable
tables (with the auto-increment counter) and the process-resident cache
with its `isCacheLoaded` flag. -/
structure Store where
  documents : List DocRow := []
  embeddings : List EmbRow := []
  nextId : Nat := 1
  vectorCache : List CacheItem := []
  isCacheLoaded : Bool := false
deriving Repr, DecidableEq

/-- `insertDocumentWithEmbedding` of `src/db/repo.js` (first variant).
`failDoc` / `failEmb` inject a failure of the corresponding SQL statement
inside the transaction; on any failure the transaction is rolled back
(the returned store is the input store) and the error is re-thrown.  Only
after a successful commit, and only if the cache is loaded, is the
normalized vector pushed onto `vectorCache`. -/
def insertDocumentWithEmbedding (sqrt : ℚ → ℚ) (failDoc failEmb : Bool)
    (st : Store) (content : String) (metadata : Metadata)
    (embedding : List ℚ) : Except String Nat × Store :=
  if embedding.length ≠ 1024 then (.error "Dimension mismatch", st)
  else
    match l2Normalize sqrt embedding with
    | .error e => (.error e, st)
    | .ok embNorm =>
      if failDoc then (.error "documents insert failed", st)
      else
        let docId := st.nextId
        if failEmb then (.error "embeddings insert failed", st)
        else
          let st' : Store :=
            { documents := st.documents ++ [⟨docId, content, metadata⟩]
              embeddings := st.embeddings ++ [⟨docId, embNorm⟩]
              nextId := st.nextId + 1
              vectorCache :=
                if st.isCacheLoaded then st.vectorCache ++ [⟨docId, metadata, embNorm⟩]
                else st.vectorCache
              isCacheLoaded := st.isCacheLoaded }
          (.ok docId, st')

/-! ## Configuration (`src/server/src/config/env.js` defaults) -/

/-- The retrieval/routing configuration read from the environment, with
the default values of `env.js`. -/
structure EnvConfig where
  RETRIEVE_MIN : ℚ := 35/100
  USE_AS_CTX_MIN : ℚ := 3/5
  MIN_TOP3_AVG : ℚ := 55/100
  TEXT_K : Nat := 5
  TABLE_K : Nat := 10
  IMAGE_K : Nat := 4

/-- Default of `CHUNK_SIZE_TOKENS` in `env.js`. -/
def CHUNK_SIZE_TOKENS : Nat := 800

/-- Default of `CHUNK_OVERLAP_TOKENS` in `env.js`. -/
def CHUNK_OVERLAP_TOKENS : Nat := 120

/-- Default of `EMB_URL` in `env.js` (trailing slash stripped). -/
def EMB_URL : String := "http://127.0.0.1:8001"

/-- Default of `EMB_MODEL` in `env.js`. -/
def EMB_MODEL : String := "BAAI/bge-m3"

/-! ## Prompts and intent patterns (`src/server/src/rag/prompts.js`)

The system prompt bodies are long natural-language instructions whose
exact wording is irrelevant to every verified property (only which prompt
is selected matters); they are abbreviated to their identifying first
lines. -/

/-- Document-grounded plain-text system prompt. -/
def SYSTEM_PLAIN : String :=
  "You are an intelligent expert specialized in Fire Investigation."

/-- Document-grounded table system prompt. -/
def SYSTEM_TABLE : String :=
  "You are an AI assistant specialized in structuring data into Tables."

/-- Smalltalk system prompt. -/
def SYSTEM_SMALLTALK : String :=
  "You are a polite AI assistant."

/-- General-knowledge (no context) system prompt. -/
def SYSTEM_GENERAL : String :=
  "You are an honest AI assistant. NO reference documents are available."

/-- The alternatives of `smalltalkRe`. -/
def smalltalkKeywords : List String :=
  ["hi", "hello", "안녕", "하이", "헬로", "감사", "땡큐", "잘가", "bye",
   "바이", "누구야", "너 누구", "자기소개", "도움"]

/-- Characters allowed by the trailing class `[\s!?.…]*` of `smalltalkRe`. -/
def isTrailChar (c : Char) : Bool :=
  isSpaceChar c || c = '!' || c = '?' || c = '.' || c = '…'

/-- The test of `smalltalkRe`
(`/^(?:\s*)(hi|hello|안녕|...|도움)(?:[\s!?.…]*)$/i`): optional leading
whitespace, one keyword (case-insensitively), then only trailing
punctuation/whitespace up to the end.  No keyword is a prefix of another,
so trying every alternative is exactly the regex semantics. -/
def smalltalkTest (s : String) : Bool :=
  let t := (jsToLower s).data.dropWhile isSpaceChar
  smalltalkKeywords.any (fun kw =>
    startsChars t (jsToLower kw).data &&
    (t.drop (jsToLower kw).data.length).all isTrailChar)

/-- The alternatives of `tableLikeRe`. -/
def tableLikeKeywords : List String :=
  ["표로", "표 형태", "table", "테이블", "표를", "표 형식", "표 형식으로",
   "표로 정리", "표로 보여줘", "표에", "표에서", "표 안에", "표에 정리된",
   "표에 나온"]

/-- The test of the unanchored, case-insensitive `tableLikeRe`: does any
alternative occur anywhere in the string? -/
def tableLikeTest (s : String) : Bool :=
  tableLikeKeywords.any (fun kw => jsIncludes (jsToLower s) (jsToLower kw))

/-! ## Retrieval and routing core (`src/server/src/rag/chain.js`,
`src/server/src/rag/intent.js`) -/

/-- One chat message. -/
structure Message where
  role : String
  content : String
deriving Repr, DecidableEq

/-- One history turn (`{user?, assistant?}`). -/
structure HistTurn where
  user : Option String := none
  assistant : Option String := none

/-- One entry of the `sources` list built by `buildContext`. -/
structure SourceEntry where
  filename : String
  similarity : ℚ
  page : Option Nat
  type : String
deriving Repr, DecidableEq

/-- The record returned by `runRag`. -/
structure RagResult where
  answer : String
  sources : List SourceEntry
  rag_mode : String
deriving Repr, DecidableEq

/-- The external services that `runRag` calls, as oracles:
`embed` is `getEmbedding(question, "query")`, `llmStream` is the
accumulated text of `callLLMStream`, `llmIntent` is the classifier LLM
answer of `classifyIntent` (`none` models a timeout/error), and `sqrt` is
`Math.sqrt`. -/
structure Oracles where
  sqrt : ℚ → ℚ
  embed : String → List ℚ
  llmStream : List Message → String
  llmIntent : String → Option String

/-- `classifyIntent` of `src/server/src/rag/intent.js`: a table-keyword
match short-circuits to `"table"`; otherwise the (trimmed, lowercased)
LLM answer decides by containing `"table"`; a timeout or error defaults
to `"plain"`. -/
def classifyIntent (o : Oracles) (question : String) : String :=
  if tableLikeTest question then "table"
  else
    match o.llmIntent question with
    | none => "plain"
    | some ans => if jsIncludes (jsToLower (jsTrim ans)) "table" then "table" else "plain"

/-- Message assembly of `callLLMNode`: system prompt, the history turns
in order (a turn contributes its `user` / `assistant` parts when truthy),
then the user message (question wrapped with the context when the context
is non-empty). -/
def buildMessages (systemPrompt : String) (history : List HistTurn)
    (context question : String) : List Message :=
  let histMsgs := history.flatMap (fun turn =>
    (match turn.user with
     | some u => if u = "" then [] else [Message.mk "user" u]
     | none => []) ++
    (match turn.assistant with
     | some a => if a = "" then [] else [Message.mk "assistant" a]
     | none => []))
  let userContent :=
    if context = "" then question
    else "Reference Documents are provided below in XML format.\nRead them carefully and answer the user's question.\n\n<context>\n"
      ++ context ++ "\n</context>\n\nUser Question: " ++ question
  Message.mk "system" systemPrompt :: histMsgs ++ [Message.mk "user" userContent]

/-- The 1600-character middle-collapsing trim of `buildContext`. -/
def trimMiddle (t : String) : String :=
  if 1600 < jsLength t then jsTake t 800 ++ "\n...\n" ++ jsTakeRight t 800 else t

/-- The last path component: `(meta.filepath || "").split(/[\\/]/).pop()`. -/
def lastPathComponent (p : String) : String :=
  ⟨((p.data.splitOnP (fun c => c = '/' || c = '\\')).getLastD [])⟩

/-- The page attribute string: `meta.page || "N/A"` (page `0` is falsy). -/
def pageDisplay (page : Option Nat) : String :=
  match page with
  | some p => if p = 0 then "N/A" else ⟨Nat.toDigits 10 p⟩
  | none => "N/A"

/-- The context-building loop of `buildContext` in `chain.js`: skip
entries without (trimmed) content, collapse long contents, stop (break)
when the 4000-character budget would be exceeded, and collect one source
entry per included match. -/
def buildContextLoop : List ScoredDoc → String → Nat → List SourceEntry →
    String × List SourceEntry
  | [], ctx, _, srcs => (ctx, srcs)
  | m :: rest, ctx, len, srcs =>
    match m.content with
    | none => buildContextLoop rest ctx len srcs
    | some c =>
      let t0 := jsTrim c
      if t0 = "" then buildContextLoop rest ctx len srcs
      else
        let t := trimMiddle t0
        if 4000 < len + jsLength t then (ctx, srcs)
        else
          let filename := lastPathComponent (m.metadata.filepath.getD "")
          let ty := m.metadata.type.getD "unknown"
          let ctx' := ctx ++ "<document source=\"" ++ filename ++ "\" page=\""
            ++ pageDisplay m.metadata.page ++ "\" type=\"" ++ ty ++ "\">\n"
            ++ t ++ "\n</document>\n\n"
          buildContextLoop rest ctx' (len + jsLength t)
            (srcs ++ [⟨filename, m.similarity, m.metadata.page, ty⟩])

/-- `buildContext` of `chain.js`: run the loop and trim the joined text. -/
def buildContext (matchList : List ScoredDoc) : String × List SourceEntry :=
  let (ctx, srcs) := buildContextLoop matchList "" 0 []
  (jsTrim ctx, srcs)

/-- `Math.max(...sims)` with the `sims.length ? _ : 0` guard. -/
def listMax : List ℚ → ℚ
  | [] => 0
  | x :: xs => xs.foldl max x

/-- The `top3Avg` computation of `retrieveDocs`: sort the similarities
descending, take the first three, and average them (0 when empty). -/
def top3AvgOf (sims : List ℚ) : ℚ :=
  let sorted := sims.mergeSort (fun a b => decide (b ≤ a))
  let top3 := sorted.take 3
  if 0 < top3.length then top3.sum / (top3.length : ℚ) else 0

/-- The fragment types of the prose retrieval slice. -/
def proseTypes : List String := ["pdf", "text", "office", "hwpx", "hwp"]

/-- The `embedQuestion` runnable of `chain.js`: embed the question in
query mode, run the three typed retrieval slices against the store with
the shared `RETRIEVE_MIN` threshold (and `sha256` only when `doc_sha` is
truthy), concatenate the results in slice order and compute `maxSim`. -/
def embedQuestionStep (o : Oracles) (cfg : EnvConfig) (cache : List CacheItem)
    (docs : List (Nat × String)) (question : String) (match_count : Nat)
    (doc_sha : Option String) : Except String (List ScoredDoc × ℚ) :=
  let qVec := o.embed question
  let shaOpt : Option String :=
    match doc_sha with
    | some s => if s = "" then none else some s
    | none => none
  let textK := if match_count = 0 then cfg.TEXT_K else match_count
  match matchDocuments o.sqrt cache docs qVec
    { k := textK, threshold := cfg.RETRIEVE_MIN, types := some proseTypes, sha256 := shaOpt } with
  | .error e => .error e
  | .ok textMatches =>
    match matchDocuments o.sqrt cache docs qVec
      { k := cfg.TABLE_K, threshold := cfg.RETRIEVE_MIN, types := some ["table_row"],
        sha256 := shaOpt } with
    | .error e => .error e
    | .ok tableMatches =>
      match matchDocuments o.sqrt cache docs qVec
        { k := cfg.IMAGE_K, threshold := cfg.RETRIEVE_MIN, types := some ["image_caption"],
          sha256 := shaOpt } with
      | .error e => .error e
      | .ok imageMatches =>
        let matchList := textMatches ++ tableMatches ++ imageMatches
        .ok (matchList, listMax (matchList.map (fun m => m.similarity)))

/-- `runRag` of `src/server/src/rag/chain.js`: the chain
`embedQuestion → retrieveDocs → buildContext → autoBranch`.  The branch
tests, in order: the smalltalk regex on the trimmed question, then the
confidence gate `maxSim >= USE_AS_CTX_MIN || top3Avg >= MIN_TOP3_AVG`
(document mode, with the intent classifier choosing the prompt and
`rag_mode = "rag-" + intent`), else general mode.  Smalltalk and general
mode clear the context and return empty `sources`. -/
def runRag (o : Oracles) (cfg : EnvConfig) (cache : List CacheItem)
    (docs : List (Nat × String)) (question : String) (history : List HistTurn)
    (match_count : Nat) (doc_sha : Option String) :
    Except String RagResult :=
  match embedQuestionStep o cfg cache docs question match_count doc_sha with
  | .error e => .error e
  | .ok (matchList, maxSim) =>
    let top3Avg := top3AvgOf (matchList.map (fun m => m.similarity))
    let (context, sources) := buildContext matchList
    if smalltalkTest (jsTrim question) then
      let msgs := buildMessages SYSTEM_SMALLTALK history "" question
      .ok { answer := jsTrim (o.llmStream msgs), sources := [], rag_mode := "smalltalk" }
    else if cfg.USE_AS_CTX_MIN ≤ maxSim ∨ cfg.MIN_TOP3_AVG ≤ top3Avg then
      let intent := classifyIntent o question
      let sys := if intent = "table" then SYSTEM_TABLE else SYSTEM_PLAIN
      let msgs := buildMessages sys history context question
      .ok { answer := jsTrim (o.llmStream msgs), sources := sources,
            rag_mode := "rag-" ++ intent }
    else
      let msgs := buildMessages SYSTEM_GENERAL history "" question
      .ok { answer := jsTrim (o.llmStream msgs), sources := [], rag_mode := "general" }

/-! ## Chunker (`src/server/chunk.js`)

The `gpt-tokenizer` `encode` / `decode` pair is external to the
repository and is abstracted as function parameters. -/

/-- One produced chunk `{text, startTok, endTok}`. -/
structure Chunk where
  text : String
  startTok : Nat
  endTok : Nat
deriving Repr, DecidableEq

/-- The window loop of `chunkTextTokens`: emit `[start, min(start +
maxTokens, N))`, keep the chunk when its decoded text is non-empty after
trimming, and advance `start` by `maxTokens - overlap`. -/
def chunkLoop (decode : List Nat → String) (tokens : List Nat)
    (maxTokens overlap : Nat) (hlt : overlap < maxTokens) (start : Nat) :
    List Chunk :=
  if h : start < tokens.length then
    let e := min (start + maxTokens) tokens.length
    let ctext := jsTrim (decode ((tokens.drop start).take maxTokens))
    let rest := chunkLoop decode tokens maxTokens overlap hlt (start + (maxTokens - overlap))
    if 0 < jsLength ctext then ⟨ctext, start, e⟩ :: rest else rest
  else []
termination_by tokens.length - start
decreasing_by omega

/-- `chunkTextTokens` of `src/server/chunk.js`, with its own JS defaults
`maxTokens = 800`, `overlap = 100`; `overlap >= maxTokens` throws. -/
def chunkTextTokens (encode : String → List Nat) (decode : List Nat → String)
    (text : String) (maxTokens : Nat := 800) (overlap : Nat := 100) :
    Except String (List Chunk) :=
  if h : overlap < maxTokens then
    .ok (chunkLoop decode (encode text) maxTokens overlap h 0)
  else .error "overlap must be < maxTokens"

/-- Reassembly of the original token stream from the produced chunks:
from each chunk keep the token window `[startTok, endTok)` minus the part
already covered by the previous chunks (the overlapping prefix). -/
def reconstruct (tokens : List Nat) : List Chunk → Nat → List Nat
  | [], _ => []
  | c :: rest, covered =>
    (tokens.drop (max c.startTok covered)).take (c.endTok - max c.startTok covered)
      ++ reconstruct tokens rest c.endTok

/-! ## Embedding client (`embedding.service.js`) -/

/-- The `input` field of an OpenAI-style embeddings request: a single
string or a batch. -/
inductive EmbInput where
  | single (text : String)
  | batch (texts : List String)
deriving Repr, DecidableEq

/-- The request that the embedding client sends to `POST
{EMB_URL}/v1/embeddings`: the JSON body carries exactly `model` and
`input`. -/
structure EmbeddingRequest where
  url : String
  model : String
  input : EmbInput
deriving Repr, DecidableEq

/-- The request constructed by `getEmbedding(text, mode)`.  The `mode`
parameter (`"passage"` / `"query"`, default `"passage"`) is accepted but
never used in the request. -/
def getEmbeddingRequest (text : String) (mode : String := "passage") :
    EmbeddingRequest :=
  { url := EMB_URL ++ "/v1/embeddings", model := EMB_MODEL, input := .single text }

/-- The request constructed by `getEmbeddingsBatch(texts, mode)` in the
non-empty case; the `mode` parameter is likewise unused. -/
def getEmbeddingsBatchRequest (texts : List String) (mode : String := "passage") :
    EmbeddingRequest :=
  { url := EMB_URL ++ "/v1/embeddings", model := EMB_MODEL, input := .batch texts }

/-! ## SSE stream reassembly (`llm.service.js`) -/

/-- Split a character list at `'\n'`, keeping every segment. -/
def splitNl : List Char → List (List Char)
  | [] => [[]]
  | c :: rest =>
    if c = '\n' then [] :: splitNl rest
    else
      match splitNl rest with
      | [] => [[c]]
      | seg :: segs => (c :: seg) :: segs

/-- Remove one trailing `'\r'` (the `\r?` of the split regex `/\r?\n/`). -/
def stripCR (l : List Char) : List Char :=
  if l.getLastD ' ' = '\r' then l.dropLast else l

/-- `chunk.split(/\r?\n/)`: split at `'\n'` and drop the `'\r'`
immediately preceding each split point (a trailing `'\r'` of the final
segment is not consumed). -/
def splitCRLF (s : String) : List (List Char) :=
  let segs := splitNl s.data
  segs.dropLast.map stripCR ++ [segs.getLastD []]

/-- Processing of one SSE line by `readSSEToText`: empty lines and lines
without the `"data: "` prefix are ignored; the `"[DONE]"` sentinel is
skipped (`continue`); otherwise the payload is parsed and
`choices[0].delta.content || ""` is appended.  `parse` models
`JSON.parse` plus the `choices?.[0]?.delta?.content` projection: `none`
is a parse error (ignored), `some c` is a parsed object with content `c`. -/
def processLine (parse : String → Option (Option String)) (acc : String)
    (line : List Char) : String :=
  if line.isEmpty then acc
  else if startsChars line "data: ".data then
    let payload : String := ⟨line.drop 6⟩
    if payload = "[DONE]" then acc
    else
      match parse payload with
      | some c => acc ++ (c.getD "")
      | none => acc
  else acc

/-- `readSSEToText` of `llm.service.js`: fold the handler over every line
of every received chunk, accumulating the delta contents. -/
def readSSEToText (parse : String → Option (Option String))
    (chunks : List String) : String :=
  chunks.foldl (fun acc chunk => (splitCRLF chunk).foldl (processLine parse) acc) ""

/-- The content contributed by a single SSE line: the parsed delta
content of a non-empty `data: ` line whose payload is not the `"[DONE]"`
sentinel, and `""` otherwise. -/
def sseLineContent (parse : String → Option (Option String))
    (line : List Char) : String :=
  if line.isEmpty then ""
  else if startsChars line "data: ".data then
    let payload : String := ⟨line.drop 6⟩
    if payload = "[DONE]" then ""
    else
      match parse payload with
      | some c => c.getD ""
      | none => ""
  else ""

/-- Specification-side reassembly: the concatenation of the per-line
contributions over all chunks, in order. -/
def sseConcat (parse : String → Option (Option String))
    (chunks : List String) : String :=
  ((chunks.flatMap splitCRLF).map (sseLineContent parse)).foldr (fun a b => a ++ b) ""

/-! ## Helper lemmas -/

/-- A string is non-empty exactly when its character list is non-empty. -/
theorem jsLength_pos_iff (s : String) : 0 < jsLength s ↔ s ≠ "" := by
  cases s with
  | mk data =>
    simp [jsLength, String.ext_iff]
    cases data <;> simp

/-- Appending one line contribution: the line handler of `readSSEToText`
appends exactly the specified per-line content. -/
theorem processLine_eq (parse : String → Option (Option String))
    (acc : String) (line : List Char) :
    processLine parse acc line = acc ++ sseLineContent parse line := by
  simp only [processLine, sseLineContent]
  repeat' split
  all_goals (first | rfl | simp)

/-- Folding string append from an arbitrary seed factors through the
empty seed. -/
theorem foldr_append_str (l : List String) (x : String) :
    l.foldr (fun a b => a ++ b) x = l.foldr (fun a b => a ++ b) "" ++ x := by
  induction l with
  | nil => simp
  | cons s t ih => simp [ih, String.append_assoc]

/-- Folding the SSE line handler over a line list appends the
concatenation of the per-line contents. -/
theorem foldl_processLine (parse : String → Option (Option String))
    (lines : List (List Char)) :
    ∀ acc, lines.foldl (processLine parse) acc =
      acc ++ (lines.map (sseLineContent parse)).foldr (fun a b => a ++ b) "" := by
  induction lines with
  | nil => intro acc; simp
  | cons l ls ih =>
    intro acc
    rw [List.foldl_cons, ih, processLine_eq, List.map_cons, List.foldr_cons,
      String.append_assoc]

/-! ## Claim C8: embedding mode forwarding -/

/-- C8 counterexample: the claim states that the request built by
`getEmbedding` for `mode = "passage"` differs from the one built for
`mode = "query"` by carrying the mode; in fact the two requests are
identical, because `getEmbedding` never places `mode` in the request. -/
theorem C8_mode_not_forwarded_counterexample :
    getEmbeddingRequest "질문" "passage" = getEmbeddingRequest "질문" "query" := rfl

/-- C8 amended: the `mode` hint accepted by `getEmbedding` (and by
`getEmbeddingsBatch`) is not forwarded to the embedding backend — the
constructed request is independent of `mode` and carries exactly the
model and the input. -/
theorem C8_embedding_request_mode_independent :
    ∀ (text m1 m2 : String),
      getEmbeddingRequest text m1 = getEmbeddingRequest text m2 ∧
      getEmbeddingRequest text m1 =
        ⟨EMB_URL ++ "/v1/embeddings", EMB_MODEL, EmbInput.single text⟩ ∧
      ∀ (texts : List String),
        getEmbeddingsBatchRequest texts m1 = getEmbeddingsBatchRequest texts m2 :=
  fun _ _ _ => ⟨rfl, rfl, fun _ => rfl⟩

/-! ## Claim C10: empty type list disables the filter -/

/-- C10: calling `matchDocuments` with `types = []` disables the type
filter entirely — every metadata passes the guard, and the search result
is the same as with `types` omitted, for every cache, query and remaining
option. -/
theorem C10_empty_types_disable_filter :
    (∀ m : Metadata, typePass (some []) m = true) ∧
    ∀ (sqrt : ℚ → ℚ) (cache : List CacheItem) (docs : List (Nat × String))
      (qe : List ℚ) (k : Nat) (th : ℚ) (sha : Option String),
      matchDocuments sqrt cache docs qe ⟨k, th, some [], sha⟩ =
        matchDocuments sqrt cache docs qe ⟨k, th, none, sha⟩ := by
  refine ⟨fun m => by simp [typePass], ?_⟩
  intro sqrt cache docs qe k th sha
  simp [matchDocuments, scoredCandidates, typePass]

/-! ## Claim C9: SSE reassembly -/

/-- Parse oracle for the C9 counterexample: payload `"TOK1"` parses to a
frame whose `choices[0].delta.content` is `"hello"`; everything else is a
parse error. -/
def testParse : String → Option (Option String) :=
  fun s => if s = "TOK1" then some (some "hello") else none

/-- C9 counterexample: the claim states that no `data: ` payload after a
`[DONE]` frame contributes to the returned text; in fact `readSSEToText`
merely skips the sentinel (`continue`) and keeps accumulating, so a
payload sent after `[DONE]` does contribute. -/
theorem C9_post_done_contributes_counterexample :
    readSSEToText testParse ["data: [DONE]", "data: TOK1"] = "hello" ∧
    ("hello" : String) ≠ "" := by
  exact ⟨rfl, by decide⟩

/-- Unfolding of the specified SSE concatenation over the first chunk. -/
theorem sseConcat_cons (parse : String → Option (Option String))
    (c : String) (cs : List String) :
    sseConcat parse (c :: cs) =
      ((splitCRLF c).map (sseLineContent parse)).foldr (fun a b => a ++ b) ""
        ++ sseConcat parse cs := by
  rw [sseConcat, sseConcat, List.flatMap_cons, List.map_append, List.foldr_append,
    foldr_append_str]

/-- C9 amended: the accumulated result equals the concatenation of
`choices[0].delta.content` over every non-empty `data: ` line whose
payload parses, taken in order over the whole frame sequence; `[DONE]`
sentinels and unparsable payloads contribute nothing but do not
terminate processing. -/
theorem C9_readSSE_concatenates_all_lines :
    ∀ (parse : String → Option (Option String)) (chunks : List String),
      readSSEToText parse chunks = sseConcat parse chunks := by
  intro parse chunks
  suffices h : ∀ (cs : List String) (acc : String),
      cs.foldl (fun acc chunk => (splitCRLF chunk).foldl (processLine parse) acc) acc
        = acc ++ sseConcat parse cs by
    simpa [readSSEToText] using h chunks ""
  intro cs
  induction cs with
  | nil => intro acc; simp [sseConcat]
  | cons c cs ih =>
    intro acc
    rw [List.foldl_cons, foldl_processLine, ih, String.append_assoc, sseConcat_cons]

/-! ## Claim C7: chunker defaults -/

/-- Tokenizer oracle for the C7 counterexample: every text encodes to the
token stream `0, 1, ..., 899`. -/
def encTok900 : String → List Nat := fun _ => List.range 900

/-- Decoder oracle for the C7 counterexample: every slice decodes to a
non-blank text. -/
def decConstX : List Nat → String := fun _ => "x"

/-- C7 counterexample: the claim states that the defaults of
`chunkTextTokens` are `max_tokens = 800`, `overlap = 120`; on a 900-token
input the default call windows `[0, 800), [700, 900)` (overlap `100`),
which differs from the `[0, 800), [680, 900)` produced by an explicit
overlap of `120`. -/
theorem C7_default_overlap_counterexample :
    chunkTextTokens encTok900 decConstX "t" =
      .ok [⟨"x", 0, 800⟩, ⟨"x", 700, 900⟩] ∧
    chunkTextTokens encTok900 decConstX "t" 800 120 =
      .ok [⟨"x", 0, 800⟩, ⟨"x", 680, 900⟩] ∧
    chunkTextTokens encTok900 decConstX "t" ≠
      chunkTextTokens encTok900 decConstX "t" 800 120 := by
  have hx : jsTrim "x" = "x" := by decide
  have hlen : jsLength "x" = 1 := by decide
  have h1 : chunkTextTokens encTok900 decConstX "t" =
      .ok [⟨"x", 0, 800⟩, ⟨"x", 700, 900⟩] := by
    simp [chunkTextTokens, chunkLoop, encTok900, decConstX, hx, hlen, Nat.min_def]
  have h2 : chunkTextTokens encTok900 decConstX "t" 800 120 =
      .ok [⟨"x", 0, 800⟩, ⟨"x", 680, 900⟩] := by
    simp [chunkTextTokens, chunkLoop, encTok900, decConstX, hx, hlen, Nat.min_def]
  refine ⟨h1, h2, ?_⟩
  rw [h1, h2]
  simp

/-- C7 amended: the defaults hard-coded in `chunkTextTokens` itself are
`max_tokens = 800` and `overlap = 100`; the value `120` is the default of
the `CHUNK_OVERLAP_TOKENS` environment setting, which the upload pipeline
passes explicitly. -/
theorem C7_chunker_defaults :
    (∀ (encode : String → List Nat) (decode : List Nat → String) (text : String),
      chunkTextTokens encode decode text = chunkTextTokens encode decode text 800 100) ∧
    CHUNK_SIZE_TOKENS = 800 ∧ CHUNK_OVERLAP_TOKENS = 120 :=
  ⟨fun _ _ _ => rfl, rfl, rfl⟩

/-! ## Insert characterization helpers -/

/-- A failed insert returns the store unchanged (the transaction is
rolled back and the cache is untouched). -/
theorem insertDocumentWithEmbedding_error (sqrt : ℚ → ℚ)
    (failDoc failEmb : Bool) (st : Store) (content : String)
    (metadata : Metadata) (embedding : List ℚ) (e : String)
    (h : (insertDocumentWithEmbedding sqrt failDoc failEmb st content metadata embedding).1
      = .error e) :
    (insertDocumentWithEmbedding sqrt failDoc failEmb st content metadata embedding).2 = st := by
  unfold insertDocumentWithEmbedding at *
  by_cases hdim : embedding.length = 1024
  · rcases hl : l2Normalize sqrt embedding with e' | nv <;>
      simp [hdim, hl] at h ⊢ <;>
      cases failDoc <;> cases failEmb <;> simp_all
  · simp [hdim]

/-- A successful insert commits both rows under the fresh id and appends
the normalized vector to the cache exactly when the cache is loaded. -/
theorem insertDocumentWithEmbedding_ok (sqrt : ℚ → ℚ)
    (failDoc failEmb : Bool) (st : Store) (content : String)
    (metadata : Metadata) (embedding : List ℚ) (docId : Nat)
    (h : (insertDocumentWithEmbedding sqrt failDoc failEmb st content metadata embedding).1
      = .ok docId) :
    ∃ embNorm, l2Normalize sqrt embedding = .ok embNorm ∧ docId = st.nextId ∧
      (insertDocumentWithEmbedding sqrt failDoc failEmb st content metadata embedding).2 =
        { documents := st.documents ++ [⟨docId, content, metadata⟩]
          embeddings := st.embeddings ++ [⟨docId, embNorm⟩]
          nextId := st.nextId + 1
          vectorCache :=
            if st.isCacheLoaded then st.vectorCache ++ [⟨docId, metadata, embNorm⟩]
            else st.vectorCache
          isCacheLoaded := st.isCacheLoaded } := by
  unfold insertDocumentWithEmbedding at *
  by_cases hdim : embedding.length = 1024
  · rcases hl : l2Normalize sqrt embedding with e' | nv <;>
      simp [hdim, hl] at h ⊢ <;>
      cases failDoc <;> cases failEmb <;> simp_all
  · simp [hdim] at h

/-! ## Claim C2: insert failure atomicity -/

/-- C2: if `insertDocumentWithEmbedding` fails — in particular on a raw
vector whose length differs from 1024, or on the failure of either
statement of the transaction — it raises an error and the whole store
(durable tables and in-memory `vectorCache`) is left unchanged; on
success the cache is appended (only when loaded) with the row committed
by the transaction. -/
theorem C2_insert_failure_atomic :
    ∀ (sqrt : ℚ → ℚ) (failDoc failEmb : Bool) (st : Store) (content : String)
      (metadata : Metadata) (embedding : List ℚ),
      (embedding.length ≠ 1024 →
        (insertDocumentWithEmbedding sqrt failDoc failEmb st content metadata embedding).1
          = .error "Dimension mismatch" ∧
        (insertDocumentWithEmbedding sqrt failDoc failEmb st content metadata embedding).2
          = st) ∧
      (∀ e, (insertDocumentWithEmbedding sqrt failDoc failEmb st content metadata embedding).1
          = .error e →
        (insertDocumentWithEmbedding sqrt failDoc failEmb st content metadata embedding).2
          = st) ∧
      (∀ docId,
        (insertDocumentWithEmbedding sqrt failDoc failEmb st content metadata embedding).1
          = .ok docId →
        ∃ embNorm, l2Normalize sqrt embedding = .ok embNorm ∧ docId = st.nextId ∧
          (insertDocumentWithEmbedding sqrt failDoc failEmb st content metadata embedding).2 =
            { documents := st.documents ++ [⟨docId, content, metadata⟩]
              embeddings := st.embeddings ++ [⟨docId, embNorm⟩]
              nextId := st.nextId + 1
              vectorCache :=
                if st.isCacheLoaded then st.vectorCache ++ [⟨docId, metadata, embNorm⟩]
                else st.vectorCache
              isCacheLoaded := st.isCacheLoaded }) := by
  intro sqrt failDoc failEmb st content metadata embedding
  refine ⟨fun hdim => ?_, fun e he => insertDocumentWithEmbedding_error _ _ _ _ _ _ _ e he,
    fun docId hok => insertDocumentWithEmbedding_ok _ _ _ _ _ _ _ docId hok⟩
  constructor
  · unfold insertDocumentWithEmbedding; simp [hdim]
  · apply insertDocumentWithEmbedding_error (e := "Dimension mismatch")
    unfold insertDocumentWithEmbedding; simp [hdim]

/-- Square-root oracle used by concrete witnesses (`Math.sqrt` may be
instantiated arbitrarily; the theorems hold for every instantiation). -/
def sqrtOne : ℚ → ℚ := fun _ => 1

/-- A 1024-dimensional all-ones raw vector. -/
def vecOnes1024 : List ℚ := List.replicate 1024 1

/-- C2 witness: inserting a correctly-dimensioned vector with a failing
`embeddings` statement raises the error and leaves the empty store
unchanged, and a 1-dimensional vector is rejected with the dimension
error. -/
theorem C2_insert_failure_atomic_witness :
    (insertDocumentWithEmbedding sqrtOne false true {} "x" {} vecOnes1024).1
      = .error "embeddings insert failed" ∧
    (insertDocumentWithEmbedding sqrtOne false true {} "x" {} vecOnes1024).2 = {} ∧
    (insertDocumentWithEmbedding sqrtOne false false {} "x" {} [1]).1
      = .error "Dimension mismatch" := by
  have hlen : vecOnes1024.length = 1024 := by
    rw [vecOnes1024, List.length_replicate]
  have hl : l2Normalize sqrtOne vecOnes1024 = .ok vecOnes1024 := by
    simp [l2Normalize, sqrtOne, hlen]
  have h1 : (insertDocumentWithEmbedding sqrtOne false true {} "x" {} vecOnes1024).1
      = .error "embeddings insert failed" := by
    simp [insertDocumentWithEmbedding, hlen, hl]
  have hd : ([1] : List ℚ).length ≠ 1024 := by simp
  exact ⟨h1,
    (C2_insert_failure_atomic sqrtOne false true {} "x" {} vecOnes1024).2.1 _ h1,
    ((C2_insert_failure_atomic sqrtOne false false {} "x" {} [1]).1 hd).1⟩

/-! ## Claim C3: unit norm on insert -/

/-- Sum of squares of a cons cell. -/
theorem sumSq_cons (x : ℚ) (xs : List ℚ) : sumSq (x :: xs) = x * x + sumSq xs := by
  simp [sumSq]

/-- Dividing every entry by `n` divides the sum of squares by `n * n`. -/
theorem sumSq_map_div (v : List ℚ) (n : ℚ) (hn : n ≠ 0) :
    sumSq (v.map (fun x => x / n)) = sumSq v / (n * n) := by
  induction v with
  | nil => simp [sumSq]
  | cons x xs ih =>
    rw [List.map_cons, sumSq_cons, sumSq_cons, ih, div_mul_div_comm, div_add_div_same]

/-- When the supplied square root is exact on the input's sum of squares
and the input is not the zero vector, `l2Normalize` returns a vector of
sum of squares exactly 1. -/
theorem l2Normalize_unit (sqrt : ℚ → ℚ) (v e : List ℚ)
    (hs : sqrt (sumSq v) * sqrt (sumSq v) = sumSq v) (hnz : sumSq v ≠ 0)
    (hok : l2Normalize sqrt v = .ok e) : sumSq e = 1 := by
  unfold l2Normalize at hok
  by_cases h0 : v.length = 0
  · simp [h0] at hok
  by_cases hz : sqrt (sumSq v) = 0
  · exact absurd (by rw [← hs, hz, mul_zero]) (Ne.symm hnz)
  by_cases h1 : sqrt (sumSq v) = 1
  · simp [h0, hz, h1] at hok
    rw [← hok, ← hs, h1, mul_one]
  · simp [h0, hz, h1] at hok
    rw [← hok, sumSq_map_div v _ hz, hs, div_self hnz]

/-- C3: every successful insert persists, and pushes into the in-memory
cache, an embedding whose sum of squares is exactly 1, hence whose
Euclidean 2-norm lies within `1e-5` of 1 (the `1e-5` tolerance of the
claim absorbs the float32 rounding, which the exact-rational model does
not need).  The square-root hypothesis states that `sqrt` is exact on
this input. -/
theorem C3_insert_unit_norm :
    ∀ (sqrt : ℚ → ℚ) (failDoc failEmb : Bool) (st : Store) (content : String)
      (metadata : Metadata) (v : List ℚ) (docId : Nat),
      sqrt (sumSq v) * sqrt (sumSq v) = sumSq v →
      sumSq v ≠ 0 →
      (insertDocumentWithEmbedding sqrt failDoc failEmb st content metadata v).1
        = .ok docId →
      ∃ e, l2Normalize sqrt v = .ok e ∧
        (insertDocumentWithEmbedding sqrt failDoc failEmb st content metadata v).2.embeddings.getLast?
          = some ⟨docId, e⟩ ∧
        (st.isCacheLoaded = true →
          (insertDocumentWithEmbedding sqrt failDoc failEmb st content metadata v).2.vectorCache.getLast?
            = some ⟨docId, metadata, e⟩) ∧
        sumSq e = 1 ∧
        ((1 : ℚ) - 1/100000) * ((1 : ℚ) - 1/100000) ≤ sumSq e ∧
        sumSq e ≤ ((1 : ℚ) + 1/100000) * ((1 : ℚ) + 1/100000) := by
  intro sqrt failDoc failEmb st content metadata v docId hs hnz hok
  obtain ⟨e, hl, hid, hst⟩ :=
    insertDocumentWithEmbedding_ok sqrt failDoc failEmb st content metadata v docId hok
  have hunit : sumSq e = 1 := l2Normalize_unit sqrt v e hs hnz hl
  refine ⟨e, hl, ?_, ?_, hunit, ?_, ?_⟩
  · rw [hst]
    exact List.getLast?_concat _
  · intro hload
    rw [hst]
    simp only [hload, if_true]
    exact List.getLast?_concat _
  · rw [hunit]; norm_num
  · rw [hunit]; norm_num

/-- Square-root oracle for the C3 witness: exact on 25. -/
def sqrtW : ℚ → ℚ := fun q => if q = 25 then 5 else 1

/-- The 1024-dimensional raw vector `(3, 4, 0, ..., 0)`. -/
def vec34 : List ℚ := 3 :: 4 :: List.replicate 1022 0

/-- The sum of squares of the C3 witness vector is 25. -/
theorem sumSq_vec34 : sumSq vec34 = 25 := by
  rw [vec34, sumSq_cons, sumSq_cons]
  rw [show sumSq (List.replicate 1022 0) = 0 by
    rw [sumSq, List.map_replicate, mul_zero, List.sum_replicate, smul_zero]]
  norm_num

/-- C3 witness: inserting `(3, 4, 0, ..., 0)` into the empty store (with
a loaded cache) succeeds and the stored embedding has sum of squares 1. -/
theorem C3_insert_unit_norm_witness :
    sqrtW (sumSq vec34) * sqrtW (sumSq vec34) = sumSq vec34 ∧
    sumSq vec34 ≠ 0 ∧
    (insertDocumentWithEmbedding sqrtW false false { isCacheLoaded := true } "c" {} vec34).1
      = .ok 1 ∧
    (∃ e, l2Normalize sqrtW vec34 = .ok e ∧
      (insertDocumentWithEmbedding sqrtW false false { isCacheLoaded := true } "c" {} vec34).2.embeddings.getLast?
        = some ⟨1, e⟩ ∧
      ((Store.mk [] [] 1 [] true).isCacheLoaded = true →
        (insertDocumentWithEmbedding sqrtW false false { isCacheLoaded := true } "c" {} vec34).2.vectorCache.getLast?
          = some ⟨1, {}, e⟩) ∧
      sumSq e = 1 ∧
      ((1 : ℚ) - 1/100000) * ((1 : ℚ) - 1/100000) ≤ sumSq e ∧
      sumSq e ≤ ((1 : ℚ) + 1/100000) * ((1 : ℚ) + 1/100000)) := by
  have hs : sqrtW (sumSq vec34) * sqrtW (sumSq vec34) = sumSq vec34 := by
    rw [sumSq_vec34]; norm_num [sqrtW]
  have hnz : sumSq vec34 ≠ 0 := by rw [sumSq_vec34]; norm_num
  have hlen : vec34.length = 1024 := by
    rw [vec34]; simp only [List.length_cons, List.length_replicate]
  have hok : (insertDocumentWithEmbedding sqrtW false false { isCacheLoaded := true } "c" {} vec34).1
      = .ok 1 := by
    have hl : l2Normalize sqrtW vec34 = .ok (vec34.map (fun x => x / 5)) := by
      rw [l2Normalize]
      rw [if_neg (by rw [hlen]; norm_num)]
      rw [sumSq_vec34]
      norm_num [sqrtW]
    simp [insertDocumentWithEmbedding, hlen, hl]
  exact ⟨hs, hnz, hok,
    C3_insert_unit_norm sqrtW false false { isCacheLoaded := true } "c" {} vec34 1 hs hnz hok⟩

/-! ## Claim C1: search soundness and ranking -/

/-- The descending-similarity comparator is transitive. -/
theorem simDesc_trans : ∀ a b c : ScoredDoc,
    simDesc a b = true → simDesc b c = true → simDesc a c = true := by
  intro a b c hab hbc
  simp only [simDesc, decide_eq_true_eq] at *
  exact le_trans hbc hab

/-- The descending-similarity comparator is total. -/
theorem simDesc_total : ∀ a b : ScoredDoc, (simDesc a b || simDesc b a) = true := by
  intro a b
  simp only [simDesc, Bool.or_eq_true, decide_eq_true_eq]
  exact le_total b.similarity a.similarity

/-- Every candidate collected by the scoring loop passed both filters,
reached the threshold, and carries no content yet. -/
theorem mem_scoredCandidates {cache : List CacheItem} {q : List ℚ}
    {opts : MatchOptions} {x : ScoredDoc} (hx : x ∈ scoredCandidates cache q opts) :
    typePass opts.types x.metadata = true ∧ shaPass opts.sha256 x.metadata = true ∧
      opts.threshold ≤ x.similarity := by
  rw [scoredCandidates, List.mem_filterMap] at hx
  obtain ⟨item, -, hf⟩ := hx
  by_cases hflt : typePass opts.types item.metadata && shaPass opts.sha256 item.metadata
  · rw [if_pos hflt] at hf
    rcases hd : dotOpt q item.embedding with _ | sim
    · simp only [hd] at hf
      exact Option.noConfusion hf
    · simp only [hd] at hf
      by_cases hth : opts.threshold ≤ sim
      · rw [if_pos hth] at hf
        cases hf
        simp only [Bool.and_eq_true] at hflt
        exact ⟨hflt.1, hflt.2, hth⟩
      · rw [if_neg hth] at hf; cases hf
  · rw [if_neg hflt] at hf; cases hf

/-- Stability of the similarity sort: restricted to any one similarity
value, the sorted candidate list is exactly the candidate list in its
original (insertion) order. -/
theorem mergeSort_filter_simClass (l : List ScoredDoc) (v : ℚ) :
    (l.mergeSort simDesc).filter (fun r => decide (r.similarity = v)) =
      l.filter (fun r => decide (r.similarity = v)) := by
  have hc : (l.filter (fun r => decide (r.similarity = v))).Pairwise
      (fun a b => simDesc a b = true) := by
    apply List.pairwise_of_forall_mem_list
    intro a ha b hb
    rw [List.mem_filter] at ha hb
    have hav := of_decide_eq_true ha.2
    have hbv := of_decide_eq_true hb.2
    simp only [simDesc, hav, hbv, decide_eq_true_eq, le_refl]
  have h1 := List.sublist_mergeSort simDesc_trans simDesc_total hc
    (List.filter_sublist l)
  have h2 : (l.filter (fun r => decide (r.similarity = v))).Sublist
      ((l.mergeSort simDesc).filter (fun r => decide (r.similarity = v))) := by
    have h3 := h1.filter (fun r => decide (r.similarity = v))
    rw [List.filter_filter] at h3
    simpa only [Bool.and_self] using h3
  have hlen : ((l.mergeSort simDesc).filter (fun r => decide (r.similarity = v))).length =
      (l.filter (fun r => decide (r.similarity = v))).length :=
    ((List.mergeSort_perm l simDesc).filter _).length_eq
  exact (h2.eq_of_length hlen.symm).symm

/-- Content attachment does not change the similarity. -/
theorem attachContent_similarity (docs : List (Nat × String)) (r : ScoredDoc) :
    (attachContent docs r).similarity = r.similarity := by
  unfold attachContent; split <;> rfl

/-- Content attachment does not change the metadata. -/
theorem attachContent_metadata (docs : List (Nat × String)) (r : ScoredDoc) :
    (attachContent docs r).metadata = r.metadata := by
  unfold attachContent; split <;> rfl

/-- C1 amended: every result of `matchDocuments` satisfies the active
filters and the threshold, the result list is non-increasing in
similarity with ties kept in candidate (insertion) order, and at most `k`
results are returned.  The type filter is active when `types` is given
and non-empty, and the sha filter when `sha256` is given and non-empty
(the JS truthiness guards disable them on `[]` and `""`). -/
theorem C1_matchDocuments_sound :
    ∀ (sqrt : ℚ → ℚ) (cache : List CacheItem) (docs : List (Nat × String))
      (qe : List ℚ) (opts : MatchOptions) (res : List ScoredDoc),
      matchDocuments sqrt cache docs qe opts = .ok res →
      ∃ q, l2Normalize sqrt qe = .ok q ∧
        res.length ≤ opts.k ∧
        (∀ r ∈ res, opts.threshold ≤ r.similarity) ∧
        (∀ ts, opts.types = some ts → ts ≠ [] →
          ∀ r ∈ res, ∃ t, r.metadata.type = some t ∧ t ∈ ts) ∧
        (∀ s, opts.sha256 = some s → s ≠ "" →
          ∀ r ∈ res, r.metadata.sha256 = some s) ∧
        res.Pairwise (fun a b => b.similarity ≤ a.similarity) ∧
        (∀ v : ℚ, (res.filter (fun r => decide (r.similarity = v))).Sublist
          (((scoredCandidates cache q opts).filter
            (fun r => decide (r.similarity = v))).map (attachContent docs))) := by
  intro sqrt cache docs qe opts res hm
  unfold matchDocuments at hm
  rcases hl : l2Normalize sqrt qe with e | q
  · simp only [hl] at hm
    exact Except.noConfusion hm
  simp only [hl, Except.ok.injEq] at hm
  subst hm
  refine ⟨q, rfl, ?_, ?_, ?_, ?_, ?_, ?_⟩
  · simp [List.length_take]
  · intro r hr
    rw [List.mem_map] at hr
    obtain ⟨r0, hr0, hattach⟩ := hr
    have hr0' : r0 ∈ scoredCandidates cache q opts :=
      List.mem_mergeSort.mp ((List.take_sublist _ _).subset hr0)
    have := (mem_scoredCandidates hr0').2.2
    rw [← hattach, attachContent_similarity]
    exact this
  · intro ts hts htsne r hr
    rw [List.mem_map] at hr
    obtain ⟨r0, hr0, hattach⟩ := hr
    have hr0' : r0 ∈ scoredCandidates cache q opts :=
      List.mem_mergeSort.mp ((List.take_sublist _ _).subset hr0)
    have hty := (mem_scoredCandidates hr0').1
    rw [hts] at hty
    rw [← hattach, attachContent_metadata]
    have h0 : 0 < ts.length := by
      cases ts with
      | nil => exact absurd rfl htsne
      | cons a l => simp
    simp only [typePass] at hty
    rw [if_pos h0] at hty
    rcases hmt : r0.metadata.type with _ | t
    · simp only [hmt] at hty
      exact Bool.noConfusion hty
    · simp only [hmt] at hty
      exact ⟨t, rfl, by simpa using hty⟩
  · intro s hsha hsne r hr
    rw [List.mem_map] at hr
    obtain ⟨r0, hr0, hattach⟩ := hr
    have hr0' : r0 ∈ scoredCandidates cache q opts :=
      List.mem_mergeSort.mp ((List.take_sublist _ _).subset hr0)
    have hsh := (mem_scoredCandidates hr0').2.1
    rw [hsha] at hsh
    rw [← hattach, attachContent_metadata]
    simp only [shaPass] at hsh
    rw [if_neg hsne] at hsh
    exact of_decide_eq_true hsh
  · have hsorted := List.sorted_mergeSort simDesc_trans simDesc_total
      (scoredCandidates cache q opts)
    have htopk := List.Pairwise.sublist (List.take_sublist opts.k _) hsorted
    rw [List.pairwise_map]
    apply htopk.imp
    intro a b hab
    rw [attachContent_similarity, attachContent_similarity]
    simpa [simDesc] using hab
  · intro v
    rw [List.filter_map]
    have hfun : ((fun r => decide (r.similarity = v)) ∘ attachContent docs) =
        (fun r => decide (r.similarity = v)) := by
      funext r
      simp [Function.comp, attachContent_similarity]
    rw [hfun]
    apply List.Sublist.map
    have hstep : ((((scoredCandidates cache q opts).mergeSort simDesc).take opts.k).filter
        (fun r => decide (r.similarity = v))).Sublist
        (((scoredCandidates cache q opts).mergeSort simDesc).filter
          (fun r => decide (r.similarity = v))) :=
      (List.take_sublist _ _).filter _
    rw [mergeSort_filter_simClass _ v] at hstep
    exact hstep

/-- Cache for the C1 counterexample: one fragment of type `pdf` with
sha `"abc"` and embedding `[1]`. -/
def cacheCE : List CacheItem :=
  [⟨1, { type := some "pdf", sha256 := some "abc" }, [1]⟩]

/-- C1 counterexample: with `types` given as the empty list and `sha256`
given as the empty string, `matchDocuments` still returns the fragment —
its type is not a member of the given `types` and its sha does not equal
the given `sha256`, contradicting the claim for these given-but-falsy
filters (the JS guards `types && types.length > 0` and `sha256 && ...`
disable them). -/
theorem C1_empty_filters_counterexample :
    matchDocuments sqrtOne cacheCE [] [1] ⟨8, 0, some [], some ""⟩ =
      .ok [⟨1, { type := some "pdf", sha256 := some "abc" }, 1, none⟩] ∧
    ¬("pdf" ∈ ([] : List String)) ∧
    some "abc" ≠ some "" := by
  refine ⟨?_, by simp, by simp⟩
  have hl : l2Normalize sqrtOne [1] = .ok [1] := by
    simp [l2Normalize, sqrtOne]
  have hscored : scoredCandidates cacheCE [1] ⟨8, 0, some [], some ""⟩ =
      [⟨1, { type := some "pdf", sha256 := some "abc" }, 1, none⟩] := by
    simp [scoredCandidates, cacheCE, typePass, shaPass, dotOpt]
  simp [matchDocuments, hl, hscored, attachContent]

/-- Metadata of the first C1 witness fragment. -/
def mdW1 : Metadata := { type := some "pdf", sha256 := some "s" }

/-- Metadata of the second C1 witness fragment. -/
def mdW2 : Metadata := { type := some "text", sha256 := some "s" }

/-- Cache for the C1 witness: two admissible fragments with similarities
1 and 1/2, one wrong-typed, one wrong-sha and one below-threshold
fragment. -/
def cacheW : List CacheItem :=
  [⟨1, mdW1, [1, 0]⟩, ⟨2, mdW2, [1/2, 0]⟩,
   ⟨3, { type := some "table_row", sha256 := some "s" }, [1, 0]⟩,
   ⟨4, { type := some "pdf", sha256 := some "zzz" }, [1, 0]⟩,
   ⟨5, mdW1, [0, 1]⟩]

/-- Documents table for the C1 witness. -/
def docsW : List (Nat × String) := [(1, "alpha"), (2, "beta")]

/-- Options for the C1 witness: threshold 1/10, prose types, sha `"s"`. -/
def optsW : MatchOptions := ⟨8, 1/10, some ["pdf", "text"], some "s"⟩

/-- C1 witness: the search over the five-fragment cache returns exactly
the two admissible fragments, ranked 1 then 1/2, with contents attached,
and the soundness theorem applies to it. -/
theorem C1_matchDocuments_sound_witness :
    matchDocuments sqrtOne cacheW docsW [1, 0] optsW =
      .ok [⟨1, mdW1, 1, some "alpha"⟩, ⟨2, mdW2, 1/2, some "beta"⟩] ∧
    (∃ q, l2Normalize sqrtOne [1, 0] = .ok q ∧
      ([⟨1, mdW1, 1, some "alpha"⟩, ⟨2, mdW2, 1/2, some "beta"⟩] : List ScoredDoc).length
        ≤ optsW.k ∧
      (∀ r ∈ ([⟨1, mdW1, 1, some "alpha"⟩, ⟨2, mdW2, 1/2, some "beta"⟩] : List ScoredDoc),
        optsW.threshold ≤ r.similarity) ∧
      (∀ ts, optsW.types = some ts → ts ≠ [] →
        ∀ r ∈ ([⟨1, mdW1, 1, some "alpha"⟩, ⟨2, mdW2, 1/2, some "beta"⟩] : List ScoredDoc),
          ∃ t, r.metadata.type = some t ∧ t ∈ ts) ∧
      (∀ s, optsW.sha256 = some s → s ≠ "" →
        ∀ r ∈ ([⟨1, mdW1, 1, some "alpha"⟩, ⟨2, mdW2, 1/2, some "beta"⟩] : List ScoredDoc),
          r.metadata.sha256 = some s) ∧
      ([⟨1, mdW1, 1, some "alpha"⟩, ⟨2, mdW2, 1/2, some "beta"⟩] : List ScoredDoc).Pairwise
        (fun a b => b.similarity ≤ a.similarity) ∧
      (∀ v : ℚ,
        (([⟨1, mdW1, 1, some "alpha"⟩, ⟨2, mdW2, 1/2, some "beta"⟩] : List ScoredDoc).filter
          (fun r => decide (r.similarity = v))).Sublist
        (((scoredCandidates cacheW q optsW).filter
          (fun r => decide (r.similarity = v))).map (attachContent docsW)))) := by
  have hl : l2Normalize sqrtOne [1, 0] = .ok [1, 0] := by
    simp [l2Normalize, sqrtOne]
  have hscored : scoredCandidates cacheW [1, 0] optsW =
      [⟨1, mdW1, 1, none⟩, ⟨2, mdW2, 1/2, none⟩] := by
    simp [scoredCandidates, cacheW, optsW, typePass, shaPass, dotOpt, mdW1, mdW2,
      List.filterMap_cons]
    try norm_num
  have hpair : List.Pairwise (fun a b => simDesc a b = true)
      ([⟨1, mdW1, 1, none⟩, ⟨2, mdW2, 1/2, none⟩] : List ScoredDoc) := by
    simp [simDesc]
    norm_num
  have hm : matchDocuments sqrtOne cacheW docsW [1, 0] optsW =
      .ok [⟨1, mdW1, 1, some "alpha"⟩, ⟨2, mdW2, 1/2, some "beta"⟩] := by
    simp only [matchDocuments, hl]
    rw [hscored, List.mergeSort_of_sorted hpair,
      List.take_of_length_le (by simp [optsW])]
    simp [attachContent, docsW]
  exact ⟨hm, C1_matchDocuments_sound sqrtOne cacheW docsW [1, 0] optsW _ hm⟩

/-! ## Claims C4 and C5: routing -/

/-- The intent classifier only ever returns `"table"` or `"plain"`. -/
theorem classifyIntent_cases (o : Oracles) (q : String) :
    classifyIntent o q = "table" ∨ classifyIntent o q = "plain" := by
  unfold classifyIntent
  split
  · exact Or.inl rfl
  · split
    · exact Or.inr rfl
    · split
      · exact Or.inl rfl
      · exact Or.inr rfl

/-- C5: a question whose trimmed text matches the smalltalk pattern takes
the smalltalk branch — `rag_mode = "smalltalk"` and empty `sources` —
regardless of the cache contents and of every retrieval similarity. -/
theorem C5_smalltalk_bypass :
    ∀ (o : Oracles) (cfg : EnvConfig) (cache : List CacheItem)
      (docs : List (Nat × String)) (question : String) (history : List HistTurn)
      (mc : Nat) (sha : Option String) (out : RagResult),
      smalltalkTest (jsTrim question) = true →
      runRag o cfg cache docs question history mc sha = .ok out →
      out.rag_mode = "smalltalk" ∧ out.sources = [] := by
  intro o cfg cache docs question history mc sha out hsm hrun
  unfold runRag at hrun
  rcases hstep : embedQuestionStep o cfg cache docs question mc sha with e | pair
  · simp only [hstep] at hrun
    exact Except.noConfusion hrun
  · obtain ⟨ms, maxSim⟩ := pair
    rcases hbc : buildContext ms with ⟨ctx, srcs⟩
    simp only [hstep, hbc, hsm, if_true] at hrun
    simp only [Except.ok.injEq] at hrun
    subst hrun
    exact ⟨rfl, rfl⟩

/-- C4: for a non-smalltalk question, `runRag` chooses document mode
(`rag_mode` of the form `rag-plain` / `rag-table`) exactly when
`maxSim >= USE_AS_CTX_MIN` or `top3Avg >= MIN_TOP3_AVG` over the union of
the three retrieval slices; otherwise it returns `rag_mode = "general"`
with empty `sources`.  The last conjunct records the default thresholds
(`0.60` and `0.55`). -/
theorem C4_confidence_gate :
    ∀ (o : Oracles) (cfg : EnvConfig) (cache : List CacheItem)
      (docs : List (Nat × String)) (question : String) (history : List HistTurn)
      (mc : Nat) (sha : Option String) (ms : List ScoredDoc) (maxSim : ℚ)
      (out : RagResult),
      smalltalkTest (jsTrim question) = false →
      embedQuestionStep o cfg cache docs question mc sha = .ok (ms, maxSim) →
      runRag o cfg cache docs question history mc sha = .ok out →
      ((out.rag_mode = "rag-plain" ∨ out.rag_mode = "rag-table") ↔
        (cfg.USE_AS_CTX_MIN ≤ maxSim ∨
          cfg.MIN_TOP3_AVG ≤ top3AvgOf (ms.map (fun m => m.similarity)))) ∧
      (¬(cfg.USE_AS_CTX_MIN ≤ maxSim ∨
          cfg.MIN_TOP3_AVG ≤ top3AvgOf (ms.map (fun m => m.similarity))) →
        out.rag_mode = "general" ∧ out.sources = []) ∧
      ({} : EnvConfig).USE_AS_CTX_MIN = 3/5 ∧ ({} : EnvConfig).MIN_TOP3_AVG = 55/100 := by
  intro o cfg cache docs question history mc sha ms maxSim out hns hstep hrun
  unfold runRag at hrun
  rcases hbc : buildContext ms with ⟨ctx, srcs⟩
  simp only [hstep, hbc, hns, Bool.false_eq_true, if_false] at hrun
  by_cases hgate : cfg.USE_AS_CTX_MIN ≤ maxSim ∨
      cfg.MIN_TOP3_AVG ≤ top3AvgOf (ms.map (fun m => m.similarity))
  · rw [if_pos hgate] at hrun
    simp only [Except.ok.injEq] at hrun
    subst hrun
    refine ⟨?_, fun h => absurd hgate h, rfl, rfl⟩
    simp only [iff_true_right hgate]
    rcases classifyIntent_cases o question with h | h <;> rw [h]
    · exact Or.inr rfl
    · exact Or.inl rfl
  · rw [if_neg hgate] at hrun
    simp only [Except.ok.injEq] at hrun
    subst hrun
    refine ⟨?_, fun _ => ⟨rfl, rfl⟩, rfl, rfl⟩
    constructor
    · intro h
      rcases h with h | h <;> exact absurd h (by simp)
    · intro h
      exact absurd h hgate

/-- Oracle bundle for the routing witnesses: every embedding is `[1]`,
the generation LLM answers `"ans"`, the intent LLM times out. -/
def oW : Oracles := ⟨sqrtOne, fun _ => [1], fun _ => "ans", fun _ => none⟩

/-- Retrieval over the empty cache yields no matches and `maxSim = 0`. -/
theorem embedQuestionStep_empty (question : String) :
    embedQuestionStep oW {} [] [] question 0 none = .ok ([], 0) := by
  simp [embedQuestionStep, oW, sqrtOne, matchDocuments, l2Normalize, scoredCandidates,
    listMax]

/-- Building context from no matches yields the empty context. -/
theorem buildContext_nil : buildContext ([] : List ScoredDoc) = ("", []) := by
  simp [buildContext, buildContextLoop, jsTrim, trimChars]

/-- C5 witness: the greeting `"안녕"` takes the smalltalk branch. -/
theorem C5_smalltalk_bypass_witness :
    smalltalkTest (jsTrim "안녕") = true ∧
    runRag oW {} [] [] "안녕" [] 0 none = .ok ⟨"ans", [], "smalltalk"⟩ ∧
    (⟨"ans", [], "smalltalk"⟩ : RagResult).rag_mode = "smalltalk" ∧
    (⟨"ans", [], "smalltalk"⟩ : RagResult).sources = [] := by
  have hsm : smalltalkTest (jsTrim "안녕") = true := by decide
  have hrun : runRag oW {} [] [] "안녕" [] 0 none = .ok ⟨"ans", [], "smalltalk"⟩ := by
    simp only [runRag, embedQuestionStep_empty, buildContext_nil, hsm, if_true]
    simp [oW, jsTrim, trimChars, isSpaceChar]
  have hconc := C5_smalltalk_bypass oW {} [] [] "안녕" [] 0 none _ hsm hrun
  exact ⟨hsm, hrun, hconc.1, hconc.2⟩

/-- C4 witness: a non-smalltalk question over the empty cache fails the
confidence gate and routes to general mode with empty sources. -/
theorem C4_confidence_gate_witness :
    smalltalkTest (jsTrim "질문") = false ∧
    embedQuestionStep oW {} [] [] "질문" 0 none = .ok ([], 0) ∧
    runRag oW {} [] [] "질문" [] 0 none = .ok ⟨"ans", [], "general"⟩ ∧
    (((⟨"ans", [], "general"⟩ : RagResult).rag_mode = "rag-plain" ∨
        (⟨"ans", [], "general"⟩ : RagResult).rag_mode = "rag-table") ↔
      (({} : EnvConfig).USE_AS_CTX_MIN ≤ (0 : ℚ) ∨
        ({} : EnvConfig).MIN_TOP3_AVG ≤
          top3AvgOf (([] : List ScoredDoc).map (fun m => m.similarity)))) := by
  have hns : smalltalkTest (jsTrim "질문") = false := by decide
  have hstep := embedQuestionStep_empty "질문"
  have hgate : ¬(({} : EnvConfig).USE_AS_CTX_MIN ≤ (0 : ℚ) ∨
      ({} : EnvConfig).MIN_TOP3_AVG ≤
        top3AvgOf (([] : List ScoredDoc).map (fun m => m.similarity))) := by
    simp [top3AvgOf]
  have hrun : runRag oW {} [] [] "질문" [] 0 none = .ok ⟨"ans", [], "general"⟩ := by
    simp only [runRag, hstep, buildContext_nil, hns, Bool.false_eq_true, if_false]
    rw [if_neg (by simpa using hgate)]
    simp [oW, jsTrim, trimChars, isSpaceChar]
  have hconc := C4_confidence_gate oW {} [] [] "질문" [] 0 none [] 0
    ⟨"ans", [], "general"⟩ hns hstep hrun
  exact ⟨hns, hstep, hrun, hconc.1⟩

/-! ## Claim C6: chunk coverage -/

/-- Core coverage property of the window loop: as long as no emitted
window is discarded (every window's decoded text is non-blank),
reassembling the emitted windows with the covered prefix `cov`
reproduces the token stream from position `cov` on.  The hypotheses are
the loop invariant tying the position `start` to the covered prefix. -/
theorem chunkLoop_reconstruct (decode : List Nat → String) (tokens : List Nat)
    (maxTokens overlap : Nat) (hlt : overlap < maxTokens) (start cov : Nat)
    (h1 : min start tokens.length ≤ cov) (h2 : cov ≤ tokens.length)
    (h3 : cov ≤ start + maxTokens)
    (hkeep : ∀ i, start + i * (maxTokens - overlap) < tokens.length →
      jsTrim (decode ((tokens.drop (start + i * (maxTokens - overlap))).take maxTokens))
        ≠ "") :
    reconstruct tokens (chunkLoop decode tokens maxTokens overlap hlt start) cov
      = tokens.drop cov := by
  rw [chunkLoop]
  by_cases h : start < tokens.length
  · rw [dif_pos h]
    have hk0 : jsTrim (decode ((tokens.drop start).take maxTokens)) ≠ "" := by
      have h0 := hkeep 0 (by simpa using h)
      simpa using h0
    have hkeep' : ∀ i,
        (start + (maxTokens - overlap)) + i * (maxTokens - overlap) < tokens.length →
        jsTrim (decode
          ((tokens.drop ((start + (maxTokens - overlap)) + i * (maxTokens - overlap))).take
            maxTokens)) ≠ "" := by
      intro i hi
      have harg : start + (maxTokens - overlap) + i * (maxTokens - overlap)
          = start + (i + 1) * (maxTokens - overlap) := by
        rw [Nat.succ_mul]; omega
      rw [harg] at hi ⊢
      exact hkeep (i + 1) hi
    have hrec := chunkLoop_reconstruct decode tokens maxTokens overlap hlt
      (start + (maxTokens - overlap)) (min (start + maxTokens) tokens.length)
      (by omega) (by omega) (by omega) hkeep'
    simp only [if_pos ((jsLength_pos_iff _).mpr hk0)]
    rw [reconstruct, hrec]
    have hsc : start ≤ cov := by omega
    rw [Nat.max_eq_right hsc]
    have hce : cov ≤ min (start + maxTokens) tokens.length := by omega
    have hdd : tokens.drop (min (start + maxTokens) tokens.length)
        = (tokens.drop cov).drop (min (start + maxTokens) tokens.length - cov) := by
      rw [List.drop_drop]
      congr 1
      omega
    rw [hdd, List.take_append_drop]
  · rw [dif_neg h]
    have hcov : cov = tokens.length := by omega
    rw [reconstruct, hcov, List.drop_length]
termination_by tokens.length - start
decreasing_by omega

/-- C6 amended: provided `overlap < max_tokens` and no emitted window of
the token stream decodes to blank text (so no chunk is discarded),
concatenating the chunk windows minus their overlapping prefixes
reproduces the original token stream exactly. -/
theorem C6_chunk_coverage :
    ∀ (encode : String → List Nat) (decode : List Nat → String) (text : String)
      (maxTokens overlap : Nat) (cs : List Chunk),
      (∀ i, i * (maxTokens - overlap) < (encode text).length →
        jsTrim (decode (((encode text).drop (i * (maxTokens - overlap))).take maxTokens))
          ≠ "") →
      chunkTextTokens encode decode text maxTokens overlap = .ok cs →
      reconstruct (encode text) cs 0 = encode text := by
  intro encode decode text maxTokens overlap cs hkeep hok
  unfold chunkTextTokens at hok
  by_cases hlt : overlap < maxTokens
  · rw [dif_pos hlt] at hok
    simp only [Except.ok.injEq] at hok
    subst hok
    have hmain := chunkLoop_reconstruct decode (encode text) maxTokens overlap hlt 0 0
      (by simp) (by simp) (by simp) (by simpa using hkeep)
    simpa using hmain
  · rw [dif_neg hlt] at hok
    exact Except.noConfusion hok

/-- Tokenizer oracle for the C6 counterexample: a single token. -/
def encodeOne : String → List Nat := fun _ => [7]

/-- Decoder oracle for the C6 counterexample: every slice decodes to a
blank, so its chunk is discarded. -/
def decodeBlank : List Nat → String := fun _ => " "

/-- C6 counterexample: with a valid `overlap < max_tokens` the claim
demands that the chunk windows reproduce the token stream for every
text; but a window whose decoded text trims to empty is discarded
(`chunkText.length > 0` guard), so its tokens are lost — here the whole
one-token stream. -/
theorem C6_blank_chunk_counterexample :
    (0 : Nat) < 2 ∧
    chunkTextTokens encodeOne decodeBlank "x" 2 0 = .ok [] ∧
    reconstruct (encodeOne "x") [] 0 ≠ encodeOne "x" := by
  refine ⟨by decide, ?_, by decide⟩
  simp [chunkTextTokens, chunkLoop, encodeOne, decodeBlank, jsTrim, trimChars,
    isSpaceChar, jsLength]

/-- Tokenizer oracle for the C6 witness: a five-token stream. -/
def encodeFive : String → List Nat := fun _ => [1, 2, 3, 4, 5]

/-- Decoder oracle for the C6 witness: every slice decodes to `"x"`. -/
def decodeX : List Nat → String := fun _ => "x"

/-- C6 witness: five tokens, `max_tokens = 3`, `overlap = 1` give the
windows `[0,3), [2,5), [4,5)`, and removing the overlapping prefixes
reassembles the stream `1..5` exactly. -/
theorem C6_chunk_coverage_witness :
    (∀ i : Nat, i * (3 - 1) < (encodeFive "t").length →
      jsTrim (decodeX (((encodeFive "t").drop (i * (3 - 1))).take 3)) ≠ "") ∧
    chunkTextTokens encodeFive decodeX "t" 3 1 =
      .ok [⟨"x", 0, 3⟩, ⟨"x", 2, 5⟩, ⟨"x", 4, 5⟩] ∧
    reconstruct (encodeFive "t") [⟨"x", 0, 3⟩, ⟨"x", 2, 5⟩, ⟨"x", 4, 5⟩] 0
      = encodeFive "t" := by
  have hkeep : ∀ i : Nat, i * (3 - 1) < (encodeFive "t").length →
      jsTrim (decodeX (((encodeFive "t").drop (i * (3 - 1))).take 3)) ≠ "" := by
    intro i hi
    simp [decodeX, jsTrim, trimChars, isSpaceChar]
  have hok : chunkTextTokens encodeFive decodeX "t" 3 1 =
      .ok [⟨"x", 0, 3⟩, ⟨"x", 2, 5⟩, ⟨"x", 4, 5⟩] := by
    simp [chunkTextTokens, chunkLoop, encodeFive, decodeX, jsTrim, trimChars,
      isSpaceChar, jsLength, Nat.min_def]
  exact ⟨hkeep, hok, C6_chunk_coverage encodeFive decodeX "t" 3 1 _ hkeep hok⟩

end Winid
